import Mathlib

set_option maxHeartbeats 1000000
set_option linter.unusedVariables false

/-!
# Life OS Manager — verification of the task/schedule data layer

Shallow embedding of the core logic of `src/app.py`: recurring-schedule
expansion (`add_recurring_schedule`), row matching for status update
(`update_status_in_sheet`) and deletion (`delete_task_from_sheet`) over the
cell-grid worksheet, the read-side queries (daily agenda, tomorrow's
highlight, today's travel total) over loaded snapshots, and snapshot loading
(`load_data`).

Dates are modelled as day ordinals in the convention of Python's
`date.toordinal` (ordinal 1 = 0001-01-01, a Monday).  Python values that can
be either a number or a string in a spreadsheet cell are modelled by `PyVal`;
Python `+` on such values is `pyAdd`, which fails (TypeError) on mixed
operands.  Operations that can raise in Python return `Except`.
-/

namespace LifeOS

/-! ## Dates and times -/

/-- Weekday names as produced by `strftime("%A")`. -/
def weekdayNames : List String :=
  ["Monday", "Tuesday", "Wednesday", "Thursday", "Friday", "Saturday", "Sunday"]

/-- `strftime("%A")` on a day ordinal: ordinal 1 (0001-01-01) is a Monday,
so the Monday-based weekday index of ordinal `d` is `(d + 6) % 7`. -/
def weekdayName (d : Nat) : String := weekdayNames.getD ((d + 6) % 7) ""

/-- A time-of-day value as produced by `st.time_input`. -/
structure HM where
  hour : Nat
  minute : Nat
deriving DecidableEq, Repr

/-- Zero-padded two-digit rendering of a number below 100. -/
def pad2 (n : Nat) : String :=
  if n < 10 then "0" ++ toString n else toString n

/-- `strftime("%H:%M")` on a time value. -/
def fmtHM (t : HM) : String := pad2 t.hour ++ ":" ++ pad2 t.minute

/-! ## Data model -/

/-- A loaded Task record: the row shape of the "Tasks" collection after
`load_data` has parsed the `Date` column into date objects. -/
structure TaskRec where
  task : String
  category : String
  location : String
  date : Nat
  startTime : String
  duration : Int
  priority : String
  status : String
  notes : String
deriving DecidableEq, Repr

/-- A Python value that is either a number or a string, as produced by
`worksheet.get_all_records()` for a spreadsheet cell. -/
inductive PyVal where
  | num (q : Rat)
  | str (s : String)
deriving DecidableEq, Repr

/-- Python `+` on cell values: number + number adds, string + string
concatenates, mixed operands raise TypeError. -/
def pyAdd : PyVal → PyVal → Except String PyVal
  | .num a, .num b => .ok (.num (a + b))
  | .str a, .str b => .ok (.str (a ++ b))
  | _, _ => .error "TypeError"

/-- `pandas.Series.sum()`: `0` on an empty series, otherwise the reduction
of the values under Python `+` (raising on mixed numeric/string content). -/
def seriesSum : List PyVal → Except String PyVal
  | [] => .ok (.num 0)
  | x :: xs => xs.foldlM pyAdd x

/-- A loaded Travel record (`Date`, `From`, `To`, `DistanceKM`, `Mode`). -/
structure TravelRec where
  date : Nat
  fromLoc : String
  toLoc : String
  distanceKM : PyVal
  mode : String
deriving DecidableEq, Repr

/-! ## Schedule expander (`add_recurring_schedule`, src/app.py lines 132-156) -/

/-- The loop of `add_recurring_schedule`: for each day offset
`i in range(weeks_to_plan * 7)`, take `current_date = today + i`, and when
`current_date.strftime("%A")` is in `days_selected` emit a Pending record
dated `current_date` carrying the input fields. -/
def recurring_entries (today : Nat) (task cat loc : String) (start_t : HM)
    (dur : Int) (priority notes : String) (days_selected : List String)
    (weeks_to_plan : Nat) : List TaskRec :=
  (List.range (weeks_to_plan * 7)).filterMap (fun i =>
    let current_date := today + i
    let day_name := weekdayName current_date
    if day_name ∈ days_selected then
      some { task := task, category := cat, location := loc,
             date := current_date, startTime := fmtHM start_t, duration := dur,
             priority := priority, status := "Pending", notes := notes }
    else none)

/-- `add_recurring_schedule`: builds the entries, and only when the list is
non-empty issues the batch append (`bulk_save_entries`) and returns its
length; otherwise returns 0 without writing.  The result is the stored Tasks
collection after the call, the returned count, and whether a write call was
issued. -/
def add_recurring_schedule (sheetTasks : List TaskRec) (today : Nat)
    (task cat loc : String) (start_t : HM) (dur : Int) (priority notes : String)
    (days_selected : List String) (weeks_to_plan : Nat := 4) :
    List TaskRec × Nat × Bool :=
  let new_entries := recurring_entries today task cat loc start_t dur priority
    notes days_selected weeks_to_plan
  if new_entries.isEmpty then (sheetTasks, 0, false)
  else (sheetTasks ++ new_entries, new_entries.length, true)

/-! ## Worksheet cell grid (gspread-level operations) -/

/-- A worksheet is a grid of text cells: a list of rows, each a list of
cells.  Rows and columns are 0-indexed here (gspread is 1-indexed; the
`Date`/`StartTime`/`Status` columns 4/5/8 become indices 3/4/7). -/
abbrev Sheet := List (List String)

/-- `ws.cell(r, c).value`: the text of a cell, empty when the row or column
is out of range (a blank cell). -/
def getCell (ws : Sheet) (r c : Nat) : String := (ws.getD r []).getD c ""

/-- Set column `c` of a row, padding the row with blank cells as needed. -/
def setCellRow (row : List String) (c : Nat) (v : String) : List String :=
  (row ++ List.replicate (c + 1 - row.length) "").set c v

/-- `ws.update_cell(r, c, v)`. -/
def update_cell (ws : Sheet) (r c : Nat) (v : String) : Sheet :=
  ws.set r (setCellRow (ws.getD r []) c v)

/-- The cells of one row whose value equals the query, with their
coordinates, in column order. -/
def rowCells (r : Nat) (row : List String) (q : String) : List (Nat × Nat) :=
  (List.range row.length).filterMap (fun c =>
    if row.getD c "" = q then some (r, c) else none)

/-- Scan rows from index `r0` collecting matching cells in row-major order. -/
def findallAux (q : String) : Nat → List (List String) → List (Nat × Nat)
  | _, [] => []
  | r0, row :: rest => rowCells r0 row q ++ findallAux q (r0 + 1) rest

/-- `ws.findall(q)`: every cell whose value equals `q`, in row-major order. -/
def findall (ws : Sheet) (q : String) : List (Nat × Nat) := findallAux q 0 ws

/-! ## Status update (`update_status_in_sheet`, src/app.py lines 92-102) -/

/-- The `for cell in cell_list` loop of `update_status_in_sheet`: for each
found cell, read the live `Date` cell (column index 3) of its row and, when
it equals the target date string, write the new status into column index 7. -/
def updLoop (date_str new_status : String) : Sheet → List (Nat × Nat) → Sheet
  | ws, [] => ws
  | ws, (r, _) :: rest =>
    if getCell ws r 3 = date_str then
      updLoop date_str new_status (update_cell ws r 7 new_status) rest
    else
      updLoop date_str new_status ws rest

/-- The body of the `try` in `update_status_in_sheet`.  In the data model
none of the worksheet operations raises (network/API failures are outside
the model), so the body always succeeds. -/
def update_status_body (ws : Sheet) (task_name date_str new_status : String) :
    Except String Sheet :=
  .ok (updLoop date_str new_status ws (findall ws task_name))

/-- `update_status_in_sheet`: runs the body; on an exception the sheet is
left as it was and `st.warning` is shown.  Returns the resulting sheet and
whether the warning was emitted. -/
def update_status_in_sheet (ws : Sheet) (task_name date_str new_status : String) :
    Sheet × Bool :=
  match update_status_body ws task_name date_str new_status with
  | .ok ws2 => (ws2, false)
  | .error _ => (ws, true)

/-! ## Deletion (`delete_task_from_sheet`, src/app.py lines 105-130) -/

/-- Trailing blank cells are not returned by `ws.row_values` (which is why
the source anticipates an `IndexError`). -/
def dropTrailingEmpty (xs : List String) : List String :=
  (xs.reverse.dropWhile (fun s => s = "")).reverse

/-- `ws.row_values(r)`. -/
def row_values (ws : Sheet) (r : Nat) : List String :=
  dropTrailingEmpty (ws.getD r [])

/-- The check inside the deletion loop: `row_values[3]` and `row_values[4]`
must both exist (otherwise `IndexError` is caught and the loop continues)
and equal the target date and time strings. -/
def delCond (ws : Sheet) (d t : String) (r : Nat) : Bool :=
  let rv := row_values ws r
  decide (5 ≤ rv.length) && (rv.getD 3 "" == d) && (rv.getD 4 "" == t)

/-- The `for cell in cell_list` loop of `delete_task_from_sheet`: on the
first cell whose row passes the date/time check, delete that row and return
True; when the list is exhausted return False. -/
def delLoop (ws : Sheet) (d t : String) : List (Nat × Nat) → Sheet × Bool
  | [] => (ws, false)
  | (r, _) :: rest =>
    if delCond ws d t r then (ws.eraseIdx r, true)
    else delLoop ws d t rest

/-- `delete_task_from_sheet`: find all cells matching the task name, then
scan them deleting at most the first row whose Date and StartTime match. -/
def delete_task_from_sheet (ws : Sheet) (task_name date_s time_s : String) :
    Sheet × Bool :=
  delLoop ws date_s time_s (findall ws task_name)

/-- A row "fully matches" the deletion key when some cell of it equals the
task name (so `findall` reaches it) and its trimmed values pass the
date/time check of the loop. -/
def rowHit (n d t : String) (row : List String) : Bool :=
  row.contains n &&
    (let rv := dropTrailingEmpty row
     decide (5 ≤ rv.length) && (rv.getD 3 "" == d) && (rv.getD 4 "" == t))

/-! ## Read-side queries (src/app.py lines 240-296) -/

/-- The sort key used by `sort_values(by="StartTime")`: lexicographic order
on the "HH:MM" strings. -/
def sheetLe (a b : TaskRec) : Prop := a.startTime ≤ b.startTime

instance : DecidableRel sheetLe :=
  fun a b => inferInstanceAs (Decidable (a.startTime ≤ b.startTime))

instance : IsTotal TaskRec sheetLe := ⟨fun a b => le_total a.startTime b.startTime⟩

instance : IsTrans TaskRec sheetLe := ⟨fun _ _ _ hab hbc => le_trans hab hbc⟩

/-- `df[df['Date'] == selected_date].sort_values(by="StartTime")`
(src/app.py line 276).  When the snapshot is empty the filter is empty, which
also covers the `df.empty` guard. -/
def daily_tasks (df : List TaskRec) (selected_date : Nat) : List TaskRec :=
  List.insertionSort sheetLe (df.filter (fun r => r.date == selected_date))

/-- `df[(df['Date'] == tmrw) & (df['Priority'] == 'High')]
.sort_values(by="StartTime")` (src/app.py line 242). -/
def tmrw_high (df : List TaskRec) (today : Nat) : List TaskRec :=
  List.insertionSort sheetLe
    (df.filter (fun r => r.date == today + 1 && r.priority == "High"))

/-- Tomorrow's highlight: `tmrw_high.iloc[0]` when non-empty, otherwise the
"No High Priority tasks tomorrow!" branch (`none`). -/
def tomorrowHighlight (df : List TaskRec) (today : Nat) : Option TaskRec :=
  (tmrw_high df today).head?

/-- `total_km` (src/app.py lines 259-263): 0 when the Travel snapshot is
empty, otherwise `df_travel[df_travel['Date'] == today]['DistanceKM'].sum()`. -/
def total_km (df_travel : List TravelRec) (today : Nat) : Except String PyVal :=
  if df_travel.isEmpty then .ok (.num 0)
  else seriesSum ((df_travel.filter (fun r => r.date == today)).map
    (fun r => r.distanceKM))

/-! ## Agenda rendering time strings (src/app.py lines 285-291) -/

/-- Split a character list on a separator character, mirroring
`str.split(sep)` / `String.splitOn` for a one-character separator. -/
def splitOnChar (sep : Char) : List Char → List (List Char)
  | [] => [[]]
  | c :: rest =>
    let r := splitOnChar sep rest
    if c = sep then [] :: r
    else
      match r with
      | [] => [[c]]
      | g :: gs => (c :: g) :: gs

/-- Value of a decimal digit string. -/
def digitsOf (cs : List Char) : Nat :=
  cs.foldl (fun a c => a * 10 + (c.toNat - 48)) 0

/-- A numeric field of `strptime`: one or two digits, value at most
`maxVal` (the regex `2[0-3]|[0-1]\d|\d` for `%H`, `[0-5]\d|\d` for `%M`,
applied to a full field, accepts exactly these). -/
def okNum (maxVal : Nat) (cs : List Char) : Bool :=
  (cs.length == 1 || cs.length == 2) && cs.all Char.isDigit &&
    decide (digitsOf cs ≤ maxVal)

/-- `datetime.strptime(s, "%H:%M")`: exactly `H:M` with a 1-2 digit hour at
most 23 and a 1-2 digit minute at most 59; anything else raises ValueError. -/
def parseHM (s : String) : Option (Nat × Nat) :=
  match splitOnChar ':' s.toList with
  | [hs, ms] =>
    if okNum 23 hs && okNum 59 ms then some (digitsOf hs, digitsOf ms)
    else none
  | _ => none

/-- `strftime("%I:%M %p")` of a minute-of-day value. -/
def fmt12 (totalMin : Nat) : String :=
  let h := totalMin / 60 % 24
  let m := totalMin % 60
  let h12 := if h % 12 = 0 then 12 else h % 12
  pad2 h12 ++ ":" ++ pad2 m ++ (if h < 12 then " AM" else " PM")

/-- The body of the `try` in the agenda loop: parse StartTime, add the
duration (`timedelta` carries across midnight; the time-of-day shown is the
total modulo a day), and format the range.  Raises when parsing fails. -/
def time_str_body (startTime : String) (duration : Int) : Except String String :=
  match parseHM startTime with
  | none => .error "ValueError"
  | some (h, m) =>
    let startMin := h * 60 + m
    let endMin := (((startMin : Int) + duration).emod (24 * 60)).toNat
    .ok (fmt12 startMin ++ " - " ++ fmt12 endMin)

/-- The displayed time range of one agenda entry: the formatted range, or
"Time Error" when the body raises. -/
def time_str (startTime : String) (duration : Int) : String :=
  match time_str_body startTime duration with
  | .ok s => s
  | .error _ => "Time Error"

/-- The agenda loop: one rendered entry (time string plus the record) per
row of `daily_tasks`. -/
def renderAgenda (df : List TaskRec) (selected_date : Nat) :
    List (String × TaskRec) :=
  (daily_tasks df selected_date).map
    (fun r => (time_str r.startTime r.duration, r))

/-! ## Snapshot loading (`load_data`, src/app.py lines 51-70) -/

/-- A raw stored Tasks row as returned by `get_all_records`: the Date column
is still text. -/
structure RawTaskRow where
  task : String
  category : String
  location : String
  date : String
  startTime : String
  duration : Int
  priority : String
  status : String
  notes : String
deriving DecidableEq, Repr

/-- Days before month `m` in a non-leap year. -/
def cumDays : Nat → Nat
  | 1 => 0 | 2 => 31 | 3 => 59 | 4 => 90 | 5 => 120 | 6 => 151 | 7 => 181
  | 8 => 212 | 9 => 243 | 10 => 273 | 11 => 304 | 12 => 334 | _ => 0

/-- The Gregorian leap-year rule. -/
def isLeap (y : Nat) : Bool := (y % 4 == 0 && y % 100 != 0) || y % 400 == 0

/-- Length of month `m` of year `y`. -/
def monthLen (y m : Nat) : Nat :=
  if m = 2 then (if isLeap y then 29 else 28)
  else if m = 4 ∨ m = 6 ∨ m = 9 ∨ m = 11 then 30
  else 31

/-- `date(y, m, d).toordinal()`. -/
def toOrdinal (y m d : Nat) : Nat :=
  365 * (y - 1) + (y - 1) / 4 - (y - 1) / 100 + (y - 1) / 400
    + cumDays m + (if 3 ≤ m ∧ isLeap y then 1 else 0) + d

/-- `pd.to_datetime` on a Date cell followed by `.dt.date`, restricted to
the ISO form `YYYY-MM-DD` the application itself writes (`str(date)`); any
other string fails, which the caller turns into an empty load. -/
def parseDateStr (s : String) : Option Nat :=
  match splitOnChar '-' s.toList with
  | [ys, ms, ds] =>
    if (ys.length == 4 && ys.all Char.isDigit) &&
       ((ms.length == 1 || ms.length == 2) && ms.all Char.isDigit) &&
       ((ds.length == 1 || ds.length == 2) && ds.all Char.isDigit) then
      let y := digitsOf ys
      let m := digitsOf ms
      let d := digitsOf ds
      if 1 ≤ y ∧ 1 ≤ m ∧ m ≤ 12 ∧ 1 ≤ d ∧ d ≤ monthLen y m then
        some (toOrdinal y m d)
      else none
    else none
  | _ => none

/-- Typed record built from a raw row and its parsed date. -/
def toTaskRec (s : RawTaskRow) (d : Nat) : TaskRec :=
  { task := s.task, category := s.category, location := s.location, date := d,
    startTime := s.startTime, duration := s.duration, priority := s.priority,
    status := s.status, notes := s.notes }

/-- `pd.to_datetime(df['Date'])` over the whole kept column: all dates must
parse, otherwise the conversion raises and the enclosing `except` returns an
empty frame. -/
def parseAllDates : List RawTaskRow → Option (List TaskRec)
  | [] => some []
  | s :: rest =>
    match parseDateStr s.date, parseAllDates rest with
    | some d, some out => some (toTaskRec s d :: out)
    | _, _ => none

/-- `load_data("Tasks")` on the stored rows: drop rows whose Date cell is
the empty string, then parse the Date column; any parse failure is caught
and yields an empty snapshot. -/
def load_data (raw : List RawTaskRow) : List TaskRec :=
  let kept := raw.filter (fun s => s.date != "")
  match parseAllDates kept with
  | some recs => recs
  | none => []

/-! ## Helper lemmas -/

/-- The dates of the produced entries are exactly the dates of the window
whose weekday name is selected, in window order. -/
theorem recurring_entries_map_date (today : Nat) (task cat loc : String)
    (st : HM) (dur : Int) (pr nt : String) (days : List String) (w : Nat) :
    (recurring_entries today task cat loc st dur pr nt days w).map
        (fun e => e.date) =
      ((List.range (w * 7)).map (fun i => today + i)).filter
        (fun d => decide (weekdayName d ∈ days)) := by
  unfold recurring_entries
  generalize List.range (w * 7) = l
  induction l with
  | nil => rfl
  | cons a l ih =>
    simp only [List.filterMap_cons, List.map_cons, List.filter_cons]
    by_cases h : weekdayName (today + a) ∈ days
    · simp [h, ih]
    · simp [h, ih]

/-- Every produced entry carries the input fields, Status "Pending", and a
date in the window with a selected weekday name. -/
theorem recurring_entries_fields (today : Nat) (task cat loc : String)
    (st : HM) (dur : Int) (pr nt : String) (days : List String) (w : Nat)
    (e : TaskRec)
    (he : e ∈ recurring_entries today task cat loc st dur pr nt days w) :
    e.task = task ∧ e.category = cat ∧ e.location = loc ∧
      e.startTime = fmtHM st ∧ e.duration = dur ∧ e.priority = pr ∧
      e.status = "Pending" ∧ e.notes = nt ∧ weekdayName e.date ∈ days ∧
      today ≤ e.date ∧ e.date < today + w * 7 := by
  unfold recurring_entries at he
  simp only [List.mem_filterMap] at he
  obtain ⟨i, hi, hf⟩ := he
  rw [List.mem_range] at hi
  by_cases h : weekdayName (today + i) ∈ days
  · rw [if_pos h] at hf
    cases hf
    refine ⟨rfl, rfl, rfl, rfl, rfl, rfl, rfl, rfl, h, ?_, ?_⟩
    · show today ≤ today + i
      omega
    · show today + i < today + w * 7
      omega
  · rw [if_neg h] at hf
    cases hf

/-- The count returned by `add_recurring_schedule` is the number of entries
produced (the `return 0` branch coincides with the empty list). -/
theorem add_recurring_schedule_count (sheet : List TaskRec) (today : Nat)
    (task cat loc : String) (st : HM) (dur : Int) (pr nt : String)
    (days : List String) (w : Nat) :
    (add_recurring_schedule sheet today task cat loc st dur pr nt days w).2.1 =
      (recurring_entries today task cat loc st dur pr nt days w).length := by
  unfold add_recurring_schedule
  by_cases h :
      (recurring_entries today task cat loc st dur pr nt days w).isEmpty
  · rw [List.isEmpty_iff] at h
    simp [h]
  · simp [h]

/-! ## Claim theorems -/

/-- C1: with a non-empty selected weekday set and horizon `weeks_to_plan*7`,
the expander produces one Pending record per date in
`[today, today + weeks_to_plan*7)` whose weekday name is selected, carrying
the input Task/Category/Location/StartTime/Duration/Priority/Notes and Date
set to that day, with dates strictly ascending, and the call returns the
number of records produced. -/
theorem c1_schedule_expander (sheet : List TaskRec) (today : Nat)
    (task cat loc : String) (st : HM) (dur : Int) (pr nt : String)
    (days : List String) (w : Nat) (hdays : days ≠ []) :
    ((recurring_entries today task cat loc st dur pr nt days w).map
        (fun e => e.date) =
      ((List.range (w * 7)).map (fun i => today + i)).filter
        (fun d => decide (weekdayName d ∈ days))) ∧
    (∀ e ∈ recurring_entries today task cat loc st dur pr nt days w,
      e.task = task ∧ e.category = cat ∧ e.location = loc ∧
      e.startTime = fmtHM st ∧ e.duration = dur ∧ e.priority = pr ∧
      e.status = "Pending" ∧ e.notes = nt ∧ weekdayName e.date ∈ days ∧
      today ≤ e.date ∧ e.date < today + w * 7) ∧
    ((recurring_entries today task cat loc st dur pr nt days w).map
        (fun e => e.date)).Pairwise (· < ·) ∧
    (add_recurring_schedule sheet today task cat loc st dur pr nt days w).2.1 =
      (recurring_entries today task cat loc st dur pr nt days w).length := by
  refine ⟨recurring_entries_map_date today task cat loc st dur pr nt days w,
    fun e he => recurring_entries_fields today task cat loc st dur pr nt days w
      e he, ?_, add_recurring_schedule_count sheet today task cat loc st dur
      pr nt days w⟩
  rw [recurring_entries_map_date]
  refine List.Pairwise.filter _ ?_
  rw [List.pairwise_map]
  exact (List.pairwise_lt_range _).imp (fun h => by omega)

/-- C1 witness: today = ordinal 1 (a Monday), days = {Monday, Wednesday},
two weeks. -/
theorem c1_schedule_expander_witness :
    ((recurring_entries 1 "Gym" "Personal" "Club" ⟨18, 0⟩ 60 "High" ""
        ["Monday", "Wednesday"] 2).map (fun e => e.date) =
      ((List.range (2 * 7)).map (fun i => 1 + i)).filter
        (fun d => decide (weekdayName d ∈ ["Monday", "Wednesday"]))) ∧
    (∀ e ∈ recurring_entries 1 "Gym" "Personal" "Club" ⟨18, 0⟩ 60 "High" ""
        ["Monday", "Wednesday"] 2,
      e.task = "Gym" ∧ e.category = "Personal" ∧ e.location = "Club" ∧
      e.startTime = fmtHM ⟨18, 0⟩ ∧ e.duration = 60 ∧ e.priority = "High" ∧
      e.status = "Pending" ∧ e.notes = "" ∧
      weekdayName e.date ∈ ["Monday", "Wednesday"] ∧
      1 ≤ e.date ∧ e.date < 1 + 2 * 7) ∧
    ((recurring_entries 1 "Gym" "Personal" "Club" ⟨18, 0⟩ 60 "High" ""
        ["Monday", "Wednesday"] 2).map (fun e => e.date)).Pairwise (· < ·) ∧
    (add_recurring_schedule [] 1 "Gym" "Personal" "Club" ⟨18, 0⟩ 60 "High" ""
        ["Monday", "Wednesday"] 2).2.1 =
      (recurring_entries 1 "Gym" "Personal" "Club" ⟨18, 0⟩ 60 "High" ""
        ["Monday", "Wednesday"] 2).length :=
  c1_schedule_expander [] 1 "Gym" "Personal" "Club" ⟨18, 0⟩ 60 "High" ""
    ["Monday", "Wednesday"] 2 (by decide)

/-- C4: with an empty selected-weekday set the expander produces zero
records, returns count 0, and issues no write call: the stored Tasks
collection is returned unchanged and the write flag is false. -/
theorem c4_empty_weekdays_no_write (sheet : List TaskRec) (today : Nat)
    (task cat loc : String) (st : HM) (dur : Int) (pr nt : String) (w : Nat) :
    recurring_entries today task cat loc st dur pr nt [] w = [] ∧
    add_recurring_schedule sheet today task cat loc st dur pr nt [] w =
      (sheet, 0, false) := by
  have hempty : recurring_entries today task cat loc st dur pr nt [] w = [] := by
    unfold recurring_entries
    simp
  refine ⟨hempty, ?_⟩
  unfold add_recurring_schedule
  simp [hempty]

/-- C5: the agenda for a date is exactly the snapshot's tasks dated that
day (a permutation of the filter), sorted ascending by StartTime, and on the
spec's example (09:00, 14:30, 08:15 on one date) the order is
08:15, 09:00, 14:30. -/
theorem c5_agenda_filter_sort (df : List TaskRec) (d : Nat) :
    (daily_tasks df d).Perm (df.filter (fun r => r.date == d)) ∧
    (daily_tasks df d).Pairwise sheetLe ∧
    (∀ r ∈ daily_tasks df d, r.date = d ∧ r ∈ df) ∧
    daily_tasks
      [⟨"a", "Study", "l", 3, "09:00", 60, "Low", "Pending", ""⟩,
       ⟨"b", "Study", "l", 3, "14:30", 60, "Low", "Pending", ""⟩,
       ⟨"c", "Study", "l", 3, "08:15", 60, "Low", "Pending", ""⟩] 3 =
      [⟨"c", "Study", "l", 3, "08:15", 60, "Low", "Pending", ""⟩,
       ⟨"a", "Study", "l", 3, "09:00", 60, "Low", "Pending", ""⟩,
       ⟨"b", "Study", "l", 3, "14:30", 60, "Low", "Pending", ""⟩] := by
  refine ⟨List.perm_insertionSort sheetLe _, List.sorted_insertionSort sheetLe _,
    fun r hr => ?_, by
      simp only [daily_tasks, List.insertionSort, List.orderedInsert, sheetLe,
        String.le_iff_toList_le]
      decide⟩
  have hmem : r ∈ df.filter (fun r => r.date == d) :=
    (List.perm_insertionSort sheetLe _).mem_iff.mp hr
  have := List.mem_filter.mp hmem
  exact ⟨by simpa using this.2, this.1⟩

/-- C5 witness: the concrete three-task snapshot of the spec's example,
applied through the agenda theorem. -/
theorem c5_agenda_filter_sort_witness :
    (∀ r ∈ daily_tasks
        [⟨"a", "Study", "l", 3, "09:00", 60, "Low", "Pending", ""⟩,
         ⟨"b", "Study", "l", 3, "14:30", 60, "Low", "Pending", ""⟩,
         ⟨"c", "Study", "l", 3, "08:15", 60, "Low", "Pending", ""⟩] 3,
      r.date = 3 ∧ r ∈
        [⟨"a", "Study", "l", 3, "09:00", 60, "Low", "Pending", ""⟩,
         ⟨"b", "Study", "l", 3, "14:30", 60, "Low", "Pending", ""⟩,
         ⟨"c", "Study", "l", 3, "08:15", 60, "Low", "Pending", ""⟩]) ∧
    (daily_tasks
        [⟨"a", "Study", "l", 3, "09:00", 60, "Low", "Pending", ""⟩,
         ⟨"b", "Study", "l", 3, "14:30", 60, "Low", "Pending", ""⟩,
         ⟨"c", "Study", "l", 3, "08:15", 60, "Low", "Pending", ""⟩] 3).Pairwise
      sheetLe :=
  ⟨fun r hr => (c5_agenda_filter_sort
      [⟨"a", "Study", "l", 3, "09:00", 60, "Low", "Pending", ""⟩,
       ⟨"b", "Study", "l", 3, "14:30", 60, "Low", "Pending", ""⟩,
       ⟨"c", "Study", "l", 3, "08:15", 60, "Low", "Pending", ""⟩] 3).2.2.1 r hr,
   (c5_agenda_filter_sort
      [⟨"a", "Study", "l", 3, "09:00", 60, "Low", "Pending", ""⟩,
       ⟨"b", "Study", "l", 3, "14:30", 60, "Low", "Pending", ""⟩,
       ⟨"c", "Study", "l", 3, "08:15", 60, "Low", "Pending", ""⟩] 3).2.1⟩

/-- C6: tomorrow's highlight is `none` exactly when no High-priority task is
dated `today + 1`; when it returns a task, that task is a High-priority task
of the snapshot dated `today + 1` whose StartTime is least among all such
tasks. -/
theorem c6_tomorrow_highlight (df : List TaskRec) (today : Nat) :
    (tomorrowHighlight df today = none ↔
      df.filter (fun r => r.date == today + 1 && r.priority == "High") = []) ∧
    (∀ t, tomorrowHighlight df today = some t →
      t ∈ df ∧ t.date = today + 1 ∧ t.priority = "High" ∧
      ∀ u ∈ df, u.date = today + 1 → u.priority = "High" →
        t.startTime ≤ u.startTime) := by
  have hperm := List.perm_insertionSort sheetLe
    (df.filter (fun r => r.date == today + 1 && r.priority == "High"))
  have hsorted := List.sorted_insertionSort sheetLe
    (df.filter (fun r => r.date == today + 1 && r.priority == "High"))
  constructor
  · constructor
    · intro h
      have h0 : tmrw_high df today = [] := List.head?_eq_none_iff.mp h
      rw [tmrw_high] at h0
      rw [h0] at hperm
      exact hperm.symm.eq_nil
    · intro h
      rw [tomorrowHighlight, List.head?_eq_none_iff, tmrw_high, h]
      rfl
  · intro t ht
    rw [tomorrowHighlight] at ht
    rcases hL : tmrw_high df today with _ | ⟨hd, tl⟩
    · rw [hL] at ht; cases ht
    · rw [hL] at ht
      cases ht
      rw [tmrw_high] at hL
      rw [hL] at hperm hsorted
      have hmemt : t ∈ df.filter
          (fun r => r.date == today + 1 && r.priority == "High") :=
        hperm.mem_iff.mp (List.mem_cons_self t tl)
      have hft := List.mem_filter.mp hmemt
      have hflags : t.date = today + 1 ∧ t.priority = "High" := by
        have := hft.2
        simp only [Bool.and_eq_true, beq_iff_eq] at this
        exact this
      refine ⟨hft.1, hflags.1, hflags.2, fun u hu hud hup => ?_⟩
      have humem : u ∈ t :: tl := hperm.mem_iff.mpr
        (List.mem_filter.mpr ⟨hu, by simp [hud, hup]⟩)
      rcases List.mem_cons.mp humem with h | h
      · exact h ▸ le_refl _
      · exact List.rel_of_sorted_cons hsorted u h

/-- C6 witness: High tasks tomorrow at 10:00 and 07:30 (today = 2, tomorrow
= 3): the highlight is the 07:30 task and its StartTime is minimal. -/
theorem c6_tomorrow_highlight_witness :
    (⟨"late", "Study", "l", 3, "10:00", 60, "High", "Pending", ""⟩ : TaskRec) ∈
      [⟨"late", "Study", "l", 3, "10:00", 60, "High", "Pending", ""⟩,
       ⟨"early", "Study", "l", 3, "07:30", 60, "High", "Pending", ""⟩] ∧
    (⟨"early", "Study", "l", 3, "07:30", 60, "High", "Pending", ""⟩ :
        TaskRec).startTime ≤ "10:00" :=
  ⟨by decide,
    ((c6_tomorrow_highlight
      [⟨"late", "Study", "l", 3, "10:00", 60, "High", "Pending", ""⟩,
       ⟨"early", "Study", "l", 3, "07:30", 60, "High", "Pending", ""⟩] 2).2
      ⟨"early", "Study", "l", 3, "07:30", 60, "High", "Pending", ""⟩
      (by
        simp only [tomorrowHighlight, tmrw_high, List.insertionSort,
          List.orderedInsert, sheetLe, String.le_iff_toList_le]
        decide)).2.2.2
      ⟨"late", "Study", "l", 3, "10:00", 60, "High", "Pending", ""⟩
      (by decide) (by decide) (by decide)⟩

/-- Reducing a list of numeric cells under Python `+` from a numeric
accumulator adds them all up and never raises. -/
theorem foldlM_pyAdd_num (qs : List Rat) (a : Rat) :
    (qs.map PyVal.num).foldlM pyAdd (PyVal.num a) =
      Except.ok (PyVal.num (a + qs.sum)) := by
  induction qs generalizing a with
  | nil =>
    show pure (PyVal.num a) = Except.ok (PyVal.num (a + ([] : List Rat).sum))
    rw [List.sum_nil, add_zero]
    rfl
  | cons q qs ih =>
    simp only [List.map_cons, List.foldlM_cons, pyAdd, List.sum_cons]
    rw [show ((Except.ok (PyVal.num (a + q)) : Except String PyVal) >>=
      fun b => (qs.map PyVal.num).foldlM pyAdd b) =
      (qs.map PyVal.num).foldlM pyAdd (PyVal.num (a + q)) from rfl, ih]
    rw [add_assoc]

/-- C7 (amended): today's travel total is the sum of the DistanceKM values
of exactly the rows dated today — provided all those values are numeric (in
particular it is 0 when there are no such rows).  A missing or non-numeric
DistanceKM is not treated as 0: see the counterexample. -/
theorem c7_travel_total_sum (df_travel : List TravelRec) (today : Nat)
    (qs : List Rat)
    (hq : (df_travel.filter (fun r => r.date == today)).map
        (fun r => r.distanceKM) = qs.map PyVal.num) :
    total_km df_travel today = Except.ok (PyVal.num qs.sum) := by
  unfold total_km
  by_cases hdf : df_travel.isEmpty
  · rw [if_pos hdf]
    rw [List.isEmpty_iff] at hdf
    subst hdf
    simp only [List.filter_nil, List.map_nil] at hq
    have : qs = [] := by
      cases qs with
      | nil => rfl
      | cons q qs => simp at hq
    simp [this]
  · rw [if_neg hdf, hq]
    cases qs with
    | nil => simp [seriesSum]
    | cons q qs =>
      simp only [List.map_cons, seriesSum, foldlM_pyAdd_num, List.sum_cons]

/-- C7 witness: today = 10 with rows of 5.2 km and 3.0 km, yesterday a 10 km
row; the total is 5.2 + 3.0. -/
theorem c7_travel_total_sum_witness :
    total_km
      [⟨10, "A", "B", PyVal.num (26/5), "Commute"⟩,
       ⟨10, "B", "C", PyVal.num 3, "Commute"⟩,
       ⟨9, "A", "C", PyVal.num 10, "Commute"⟩] 10 =
      Except.ok (PyVal.num ([(26 : Rat)/5, 3] : List Rat).sum) :=
  c7_travel_total_sum
    [⟨10, "A", "B", PyVal.num (26/5), "Commute"⟩,
     ⟨10, "B", "C", PyVal.num 3, "Commute"⟩,
     ⟨9, "A", "C", PyVal.num 10, "Commute"⟩] 10 [26/5, 3] rfl

/-- C7 counterexample: a Travel snapshot with a row for today whose
DistanceKM is the empty string (a missing cell) next to a numeric 5.2 km
row.  The claim's "treat missing/non-numeric as 0" would give 5.2; the code
raises a TypeError from the mixed-type sum instead. -/
theorem c7_counterexample :
    total_km
      [⟨5, "A", "B", PyVal.num (26/5), "Commute"⟩,
       ⟨5, "B", "C", PyVal.str "", "Commute"⟩] 5 =
      Except.error "TypeError" ∧
    (Except.error "TypeError" : Except String PyVal) ≠
      Except.ok (PyVal.num (26/5)) :=
  ⟨rfl, fun h => Except.noConfusion h⟩

/-- C8: when a snapshot row dated `d` has a StartTime that does not parse as
HH:MM, the `strptime` body raises, but the rendered agenda shows
"Time Error" for that entry's time range, still contains one entry per task
dated `d`, and produces the entry of every other row as well. -/
theorem c8_bad_time_isolated (df : List TaskRec) (d : Nat) (r : TaskRec)
    (hmem : r ∈ df) (hdate : r.date = d) (hbad : parseHM r.startTime = none) :
    time_str_body r.startTime r.duration = Except.error "ValueError" ∧
    time_str r.startTime r.duration = "Time Error" ∧
    ("Time Error", r) ∈ renderAgenda df d ∧
    (renderAgenda df d).length =
      (df.filter (fun x => x.date == d)).length ∧
    (∀ x ∈ df.filter (fun x => x.date == d),
      (time_str x.startTime x.duration, x) ∈ renderAgenda df d) := by
  have hbody : time_str_body r.startTime r.duration =
      Except.error "ValueError" := by
    unfold time_str_body
    rw [hbad]
  have hts : time_str r.startTime r.duration = "Time Error" := by
    unfold time_str
    rw [hbody]
  have hperm := List.perm_insertionSort sheetLe
    (df.filter (fun x => x.date == d))
  have hdtmem : ∀ x ∈ df.filter (fun x => x.date == d),
      (time_str x.startTime x.duration, x) ∈ renderAgenda df d := by
    intro x hx
    unfold renderAgenda
    exact List.mem_map.mpr ⟨x, hperm.mem_iff.mpr hx, rfl⟩
  refine ⟨hbody, hts, ?_, ?_, hdtmem⟩
  · have : r ∈ df.filter (fun x => x.date == d) :=
      List.mem_filter.mpr ⟨hmem, by simp [hdate]⟩
    have := hdtmem r this
    rw [hts] at this
    exact this
  · unfold renderAgenda daily_tasks
    rw [List.length_map]
    exact hperm.length_eq

/-- C8 witness: a snapshot with one well-formed 09:00 task and one task with
the unparseable StartTime "banana", both dated 3. -/
theorem c8_bad_time_isolated_witness :
    time_str_body "banana" 60 = Except.error "ValueError" ∧
    time_str "banana" 60 = "Time Error" ∧
    ("Time Error",
      (⟨"bad", "Study", "l", 3, "banana", 60, "Low", "Pending", ""⟩ :
        TaskRec)) ∈
      renderAgenda
        [⟨"ok", "Study", "l", 3, "09:00", 60, "Low", "Pending", ""⟩,
         ⟨"bad", "Study", "l", 3, "banana", 60, "Low", "Pending", ""⟩] 3 ∧
    (renderAgenda
        [⟨"ok", "Study", "l", 3, "09:00", 60, "Low", "Pending", ""⟩,
         ⟨"bad", "Study", "l", 3, "banana", 60, "Low", "Pending", ""⟩]
        3).length =
      (([⟨"ok", "Study", "l", 3, "09:00", 60, "Low", "Pending", ""⟩,
         ⟨"bad", "Study", "l", 3, "banana", 60, "Low", "Pending", ""⟩] :
          List TaskRec).filter (fun x => x.date == 3)).length ∧
    (∀ x ∈ ([⟨"ok", "Study", "l", 3, "09:00", 60, "Low", "Pending", ""⟩,
        ⟨"bad", "Study", "l", 3, "banana", 60, "Low", "Pending", ""⟩] :
          List TaskRec).filter (fun x => x.date == 3),
      (time_str x.startTime x.duration, x) ∈
        renderAgenda
          [⟨"ok", "Study", "l", 3, "09:00", 60, "Low", "Pending", ""⟩,
           ⟨"bad", "Study", "l", 3, "banana", 60, "Low", "Pending", ""⟩] 3) :=
  c8_bad_time_isolated
    [⟨"ok", "Study", "l", 3, "09:00", 60, "Low", "Pending", ""⟩,
     ⟨"bad", "Study", "l", 3, "banana", 60, "Low", "Pending", ""⟩] 3
    ⟨"bad", "Study", "l", 3, "banana", 60, "Low", "Pending", ""⟩
    (by decide) rfl (by decide)

/-- Rows produced by the date-column conversion all come from the input
rows, with their parsed dates. -/
theorem parseAllDates_sound (l : List RawTaskRow) (out : List TaskRec)
    (h : parseAllDates l = some out) :
    ∀ rec ∈ out, ∃ s ∈ l, (parseDateStr s.date).map (toTaskRec s) = some rec := by
  induction l generalizing out with
  | nil =>
    cases h
    intro rec hrec
    cases hrec
  | cons s rest ih =>
    unfold parseAllDates at h
    cases hd : parseDateStr s.date with
    | none => rw [hd] at h; cases h
    | some dn =>
      rw [hd] at h
      cases hrest : parseAllDates rest with
      | none => rw [hrest] at h; cases h
      | some outRest =>
        rw [hrest] at h
        cases h
        intro rec hrec
        rcases List.mem_cons.mp hrec with h1 | h1
        · exact ⟨s, List.mem_cons_self s rest, by rw [hd, h1]; rfl⟩
        · obtain ⟨s', hs', hmap⟩ := ih outRest hrest rec h1
          exact ⟨s', List.mem_cons_of_mem s hs', hmap⟩

/-- C10: loading silently drops every stored row whose Date cell is the
empty string: the loaded snapshot is unchanged if those rows are removed
from storage first (so they are invisible to every read), and every loaded
record comes from a stored row with a non-empty Date. -/
theorem c10_empty_date_rows_dropped (raw : List RawTaskRow) :
    load_data raw = load_data (raw.filter (fun s => s.date != "")) ∧
    (∀ rec ∈ load_data raw, ∃ s ∈ raw, s.date ≠ "" ∧
      (parseDateStr s.date).map (toTaskRec s) = some rec) := by
  constructor
  · unfold load_data
    rw [List.filter_filter]
    simp only [Bool.and_self]
  · intro rec hrec
    unfold load_data at hrec
    simp only [] at hrec
    split at hrec
    next out hout =>
      obtain ⟨s, hs, hmap⟩ := parseAllDates_sound _ out hout rec hrec
      have hf := List.mem_filter.mp hs
      refine ⟨s, hf.1, ?_, hmap⟩
      have := hf.2
      simpa using this
    next => cases hrec

/-- C10 witness: a two-row store where the second row has an empty Date; it
is dropped and the loaded snapshot equals the load of the filtered store. -/
theorem c10_empty_date_rows_dropped_witness :
    load_data
      [⟨"Gym", "Personal", "l", "2024-01-10", "18:00", 60, "High", "Pending", ""⟩,
       ⟨"Ghost", "Personal", "l", "", "18:00", 60, "High", "Pending", ""⟩] =
      load_data
        (([⟨"Gym", "Personal", "l", "2024-01-10", "18:00", 60, "High",
             "Pending", ""⟩,
           ⟨"Ghost", "Personal", "l", "", "18:00", 60, "High", "Pending",
             ""⟩] : List RawTaskRow).filter (fun s => s.date != "")) ∧
    (∃ s ∈ ([⟨"Gym", "Personal", "l", "2024-01-10", "18:00", 60, "High",
          "Pending", ""⟩,
        ⟨"Ghost", "Personal", "l", "", "18:00", 60, "High", "Pending",
          ""⟩] : List RawTaskRow), s.date ≠ "" ∧
      (parseDateStr s.date).map (toTaskRec s) =
        some (toTaskRec
          ⟨"Gym", "Personal", "l", "2024-01-10", "18:00", 60, "High",
            "Pending", ""⟩ 738895)) :=
  ⟨(c10_empty_date_rows_dropped
      [⟨"Gym", "Personal", "l", "2024-01-10", "18:00", 60, "High", "Pending",
        ""⟩,
       ⟨"Ghost", "Personal", "l", "", "18:00", 60, "High", "Pending", ""⟩]).1,
   (c10_empty_date_rows_dropped
      [⟨"Gym", "Personal", "l", "2024-01-10", "18:00", 60, "High", "Pending",
        ""⟩,
       ⟨"Ghost", "Personal", "l", "", "18:00", 60, "High", "Pending", ""⟩]).2
     (toTaskRec
       ⟨"Gym", "Personal", "l", "2024-01-10", "18:00", 60, "High", "Pending",
         ""⟩ 738895) (by decide)⟩

/-! ## Worksheet lemmas -/

/-- `getD` through a list index bound. -/
theorem getD_eq_getElem {α : Type} (l : List α) (dflt : α) (c : Nat)
    (h : c < l.length) : l.getD c dflt = l[c] := by
  simp [List.getD_eq_getElem?_getD, List.getElem?_eq_getElem h]

/-- `getD` out of range gives the default. -/
theorem getD_eq_default {α : Type} (l : List α) (dflt : α) (c : Nat)
    (h : l.length ≤ c) : l.getD c dflt = dflt := by
  simp [List.getD_eq_getElem?_getD, List.getElem?_eq_none h]

/-- Padding a row with blank cells changes no `getD`-read cell. -/
theorem getD_append_replicate (row : List String) (n c : Nat) :
    (row ++ List.replicate n "").getD c "" = row.getD c "" := by
  rcases Nat.lt_or_ge c row.length with h | h
  · simp [List.getD_eq_getElem?_getD, List.getElem?_append, h]
  · rw [getD_eq_default row "" c h]
    rcases Nat.lt_or_ge c (row.length + n) with h2 | h2
    · rw [getD_eq_getElem _ _ _ (by simp; omega)]
      rw [List.getElem_append_right h]
      simp
    · exact getD_eq_default _ _ _ (by simp; omega)

/-- Setting a cell writes that column. -/
theorem getD_setCellRow_self (row : List String) (c : Nat) (v : String) :
    (setCellRow row c v).getD c "" = v := by
  unfold setCellRow
  have hlen : c < (row ++ List.replicate (c + 1 - row.length) "").length := by
    simp
    omega
  simp only [List.getD_eq_getElem?_getD, List.getElem?_set, List.length_append,
    List.length_replicate]
  rw [if_pos (show c < row.length + (c + 1 - row.length) by omega)]
  rfl

/-- Setting a cell leaves the other columns alone. -/
theorem getD_setCellRow_ne (row : List String) (c c' : Nat) (v : String)
    (h : c' ≠ c) : (setCellRow row c v).getD c' "" = row.getD c' "" := by
  unfold setCellRow
  rw [List.getD_eq_getElem?_getD, List.getElem?_set_ne (Ne.symm h),
    ← List.getD_eq_getElem?_getD]
  exact getD_append_replicate row _ c'

/-- An out-of-range `update_cell` is a no-op (`List.set` out of range). -/
theorem update_cell_oob (ws : Sheet) (r c : Nat) (v : String)
    (h : ws.length ≤ r) : update_cell ws r c v = ws := by
  unfold update_cell
  exact List.set_eq_of_length_le h

/-- `update_cell` keeps the sheet's row count. -/
theorem length_update_cell (ws : Sheet) (r c : Nat) (v : String) :
    (update_cell ws r c v).length = ws.length := by
  unfold update_cell
  simp

/-- `update_cell` changes no cell at a different row or column. -/
theorem getCell_update_cell_of_ne (ws : Sheet) (r r' c c' : Nat) (v : String)
    (h : r' ≠ r ∨ c' ≠ c) :
    getCell (update_cell ws r c v) r' c' = getCell ws r' c' := by
  rcases eq_or_ne r' r with rfl | hr
  · have hc : c' ≠ c := h.resolve_left (by simp)
    unfold getCell update_cell
    rcases Nat.lt_or_ge r' ws.length with hlt | hge
    · rw [show (ws.set r' (setCellRow (ws.getD r' []) c v)).getD r' [] =
          setCellRow (ws.getD r' []) c v by
        simp [List.getD_eq_getElem?_getD, List.getElem?_set, hlt]]
      exact getD_setCellRow_ne _ _ _ _ hc
    · rw [List.set_eq_of_length_le hge]
  · unfold getCell update_cell
    have hrow : (List.set ws r (setCellRow (List.getD ws r []) c v)).getD r' [] =
        ws.getD r' [] := by
      rw [List.getD_eq_getElem?_getD, List.getElem?_set_ne (Ne.symm hr),
        ← List.getD_eq_getElem?_getD]
    rw [hrow]

/-- `update_cell` writes the target cell (when its row exists). -/
theorem getCell_update_cell_self (ws : Sheet) (r c : Nat) (v : String)
    (hr : r < ws.length) : getCell (update_cell ws r c v) r c = v := by
  unfold getCell update_cell
  rw [show (ws.set r (setCellRow (ws.getD r []) c v)).getD r [] =
      setCellRow (ws.getD r []) c v by
    simp [List.getD_eq_getElem?_getD, List.getElem?_set, hr]]
  exact getD_setCellRow_self _ _ _

/-- The status-update loop never touches the Date column. -/
theorem updLoop_getCell_col3 (d s : String) (ws : Sheet)
    (cs : List (Nat × Nat)) (r : Nat) :
    getCell (updLoop d s ws cs) r 3 = getCell ws r 3 := by
  induction cs generalizing ws with
  | nil => rfl
  | cons rc rest ih =>
    obtain ⟨r0, c0⟩ := rc
    simp only [updLoop]
    split
    · rw [ih, getCell_update_cell_of_ne ws r0 r 7 3 s (Or.inr (by omega))]
    · exact ih ws

/-- The status-update loop keeps the sheet's row count. -/
theorem updLoop_length (d s : String) (ws : Sheet) (cs : List (Nat × Nat)) :
    (updLoop d s ws cs).length = ws.length := by
  induction cs generalizing ws with
  | nil => rfl
  | cons rc rest ih =>
    obtain ⟨r0, c0⟩ := rc
    simp only [updLoop]
    split
    · rw [ih, length_update_cell]
    · exact ih ws

/-- Once a Status cell holds the new status, the rest of the loop keeps it
(every write of the loop writes that same value). -/
theorem updLoop_keeps_status (d s : String) (ws : Sheet)
    (cs : List (Nat × Nat)) (r : Nat) (h : getCell ws r 7 = s) :
    getCell (updLoop d s ws cs) r 7 = s := by
  induction cs generalizing ws with
  | nil => exact h
  | cons rc rest ih =>
    obtain ⟨r0, c0⟩ := rc
    simp only [updLoop]
    split
    · apply ih
      rcases eq_or_ne r r0 with rfl | hne
      · rcases Nat.lt_or_ge r ws.length with hlt | hge
        · exact getCell_update_cell_self ws r 7 s hlt
        · rw [update_cell_oob ws r 7 s hge]
          exact h
      · rw [getCell_update_cell_of_ne ws r0 r 7 7 s (Or.inl hne)]
        exact h
    · exact ih ws h

/-- If a cell of row `r` is in the loop's cell list and row `r`'s Date cell
matches, the loop sets row `r`'s Status cell to the new status. -/
theorem updLoop_sets (d s : String) (ws : Sheet) (cs : List (Nat × Nat))
    (r c : Nat) (hmem : (r, c) ∈ cs) (hdate : getCell ws r 3 = d)
    (hr : r < ws.length) : getCell (updLoop d s ws cs) r 7 = s := by
  induction cs generalizing ws with
  | nil => cases hmem
  | cons rc rest ih =>
    obtain ⟨r0, c0⟩ := rc
    simp only [updLoop]
    rcases List.mem_cons.mp hmem with heq | hmem'
    · cases heq
      rw [if_pos hdate]
      exact updLoop_keeps_status d s _ rest r
        (getCell_update_cell_self ws r 7 s hr)
    · split
      · refine ih (update_cell ws r0 7 s) hmem' ?_ ?_
        · rw [getCell_update_cell_of_ne ws r0 r 7 3 s (Or.inr (by omega))]
          exact hdate
        · rw [length_update_cell]
          exact hr
      · exact ih ws hmem' hdate hr

/-! ## `findall` characterization -/

/-- Membership in one row's matching cells. -/
theorem rowCells_mem (r : Nat) (row : List String) (q : String) (r' c : Nat) :
    (r', c) ∈ rowCells r row q ↔
      r' = r ∧ c < row.length ∧ row.getD c "" = q := by
  unfold rowCells
  rw [List.mem_filterMap]
  constructor
  · rintro ⟨i, hi, hif⟩
    rw [List.mem_range] at hi
    by_cases hq : row.getD i "" = q
    · rw [if_pos hq] at hif
      obtain ⟨h1, h2⟩ := Prod.mk.injEq .. ▸ Option.some.injEq .. ▸ hif
      injection hif with hpair
      injection hpair with ha hb
      exact ⟨ha.symm, hb ▸ hi, hb ▸ hq⟩
    · rw [if_neg hq] at hif
      cases hif
  · rintro ⟨rfl, hc, hq⟩
    exact ⟨c, List.mem_range.mpr hc, by rw [if_pos hq]⟩

/-- Membership in the scan starting at row index `k`. -/
theorem findallAux_mem (q : String) (k : Nat) (rows : List (List String))
    (r c : Nat) :
    (r, c) ∈ findallAux q k rows ↔
      ∃ i, i < rows.length ∧ r = k + i ∧ c < (rows.getD i []).length ∧
        (rows.getD i []).getD c "" = q := by
  induction rows generalizing k with
  | nil => simp [findallAux]
  | cons row rest ih =>
    simp only [findallAux, List.mem_append, rowCells_mem, ih]
    constructor
    · rintro (⟨rfl, hc, hq⟩ | ⟨i, hi, rfl, hc, hq⟩)
      · exact ⟨0, by simp, by omega, by simpa using hc, by simpa using hq⟩
      · refine ⟨i + 1, by simp; omega, by omega, ?_, ?_⟩
        · rw [List.getD_cons_succ]
          exact hc
        · rw [List.getD_cons_succ]
          exact hq
    · rintro ⟨i, hi, rfl, hc, hq⟩
      cases i with
      | zero =>
        left
        rw [List.getD_cons_zero] at hc hq
        exact ⟨by omega, hc, hq⟩
      | succ j =>
        right
        rw [List.getD_cons_succ] at hc hq
        exact ⟨j, by simp at hi; omega, by omega, hc, hq⟩

/-- `findall` finds exactly the in-range cells equal to the query. -/
theorem findall_mem (ws : Sheet) (q : String) (r c : Nat) :
    (r, c) ∈ findall ws q ↔
      r < ws.length ∧ c < (ws.getD r []).length ∧
        (ws.getD r []).getD c "" = q := by
  unfold findall
  rw [findallAux_mem]
  constructor
  · rintro ⟨i, hi, rfl, hc, hq⟩
    simp only [Nat.zero_add]
    exact ⟨hi, hc, hq⟩
  · rintro ⟨hr, hc, hq⟩
    exact ⟨r, hr, by omega, hc, hq⟩

/-- Every cell found in the scan from `k` lies at row `k` or later. -/
theorem findallAux_fst_ge (q : String) (k : Nat) (rows : List (List String)) :
    ∀ x ∈ findallAux q k rows, k ≤ x.1 := by
  intro x hx
  obtain ⟨r, c⟩ := x
  rw [findallAux_mem] at hx
  obtain ⟨i, _, rfl, _, _⟩ := hx
  omega

/-- The scan lists cells with non-decreasing row indices. -/
theorem findallAux_fst_pairwise (q : String) (k : Nat)
    (rows : List (List String)) :
    (findallAux q k rows).Pairwise (fun a b => a.1 ≤ b.1) := by
  induction rows generalizing k with
  | nil => simp [findallAux]
  | cons row rest ih =>
    simp only [findallAux]
    rw [List.pairwise_append]
    refine ⟨?_, ih (k + 1), ?_⟩
    · apply List.pairwise_of_forall_mem_list
      intro a ha b hb
      obtain ⟨r1, c1⟩ := a
      obtain ⟨r2, c2⟩ := b
      rw [rowCells_mem] at ha hb
      omega
    · intro a ha b hb
      obtain ⟨r1, c1⟩ := a
      rw [rowCells_mem] at ha
      have := findallAux_fst_ge q (k + 1) rest b hb
      omega

/-- `findall` lists cells in non-decreasing row order. -/
theorem findall_fst_pairwise (ws : Sheet) (q : String) :
    (findall ws q).Pairwise (fun a b => a.1 ≤ b.1) :=
  findallAux_fst_pairwise q 0 ws

/-- In a row-sorted cell list, everything strictly before the first match of
`find?` — in particular every cell of an earlier row — fails the predicate. -/
theorem find?_sorted_min (p : Nat × Nat → Bool) (cs : List (Nat × Nat))
    (hsort : cs.Pairwise (fun a b => a.1 ≤ b.1)) (x : Nat × Nat)
    (hfind : cs.find? p = some x) :
    ∀ y ∈ cs, y.1 < x.1 → p y = false := by
  induction cs with
  | nil => cases hfind
  | cons z rest ih =>
    rw [List.find?_cons] at hfind
    cases hp : p z with
    | true =>
      rw [hp] at hfind
      injection hfind with h
      subst h
      intro y hy hlt
      rcases List.mem_cons.mp hy with rfl | hy'
      · omega
      · have := (List.pairwise_cons.mp hsort).1 y hy'
        omega
    | false =>
      rw [hp] at hfind
      intro y hy hlt
      rcases List.mem_cons.mp hy with rfl | hy'
      · exact hp
      · exact ih (List.pairwise_cons.mp hsort).2 hfind y hy' hlt

/-! ## Deletion characterization -/

/-- The deletion loop deletes at the first cell passing the check, scanning
in list order. -/
theorem delLoop_eq_find (ws : Sheet) (d t : String) (cs : List (Nat × Nat)) :
    delLoop ws d t cs =
      match cs.find? (fun rc => delCond ws d t rc.1) with
      | some rc => (ws.eraseIdx rc.1, true)
      | none => (ws, false) := by
  induction cs with
  | nil => rfl
  | cons rc rest ih =>
    obtain ⟨r, c⟩ := rc
    simp only [delLoop, List.find?_cons]
    cases hp : delCond ws d t r with
    | true => simp [hp]
    | false => simp [hp, ih]

/-- A row contains a value exactly when some in-range cell reads it. -/
theorem contains_iff_getD (row : List String) (n : String) :
    row.contains n = true ↔ ∃ c, c < row.length ∧ row.getD c "" = n := by
  have hmem : row.contains n = true ↔ n ∈ row := by simp [List.contains]
  rw [hmem]
  constructor
  · intro h
    obtain ⟨i, hi, hq⟩ := List.mem_iff_getElem.mp h
    exact ⟨i, hi, by rw [getD_eq_getElem row "" i hi]; exact hq⟩
  · rintro ⟨c, hc, hq⟩
    rw [getD_eq_getElem row "" c hc] at hq
    exact hq ▸ List.getElem_mem hc

/-- `rowHit` on a stored row is the name-containment check together with the
deletion loop's date/time check for that row. -/
theorem rowHit_eq (n d t : String) (ws : Sheet) (r : Nat) :
    rowHit n d t (ws.getD r []) =
      ((ws.getD r []).contains n && delCond ws d t r) := rfl

/-- A row index beyond the sheet never hits (the default row is empty). -/
theorem rowHit_oob (n d t : String) (ws : Sheet) (r : Nat)
    (h : ws.length ≤ r) : rowHit n d t (ws.getD r []) = false := by
  rw [getD_eq_default ws [] r h]
  rfl

/-- A cell of `findall` passing the deletion check exists exactly when some
stored row fully matches the deletion key. -/
theorem exists_hit_iff (ws : Sheet) (n d t : String) :
    (∃ rc ∈ findall ws n, delCond ws d t rc.1 = true) ↔
      ∃ row ∈ ws, rowHit n d t row = true := by
  constructor
  · rintro ⟨⟨r, c⟩, hmem, hcond⟩
    rw [findall_mem] at hmem
    obtain ⟨hr, hc, hq⟩ := hmem
    refine ⟨ws.getD r [], ?_, ?_⟩
    · rw [getD_eq_getElem ws [] r hr]
      exact List.getElem_mem hr
    · rw [rowHit_eq n d t ws r, Bool.and_eq_true]
      exact ⟨(contains_iff_getD _ n).mpr ⟨c, hc, hq⟩, hcond⟩
  · rintro ⟨row, hrow, hhit⟩
    obtain ⟨r, hr, hrow_eq⟩ := List.mem_iff_getElem.mp hrow
    have hgetD : ws.getD r [] = row := by
      rw [getD_eq_getElem ws [] r hr]
      exact hrow_eq
    rw [← hgetD] at hhit
    rw [rowHit_eq n d t ws r, Bool.and_eq_true] at hhit
    obtain ⟨hcont, hcond⟩ := hhit
    obtain ⟨c, hc, hq⟩ := (contains_iff_getD _ n).mp hcont
    exact ⟨(r, c), (findall_mem ws n r c).mpr ⟨hr, hc, hq⟩, hcond⟩

/-- Full behavior of `delete_task_from_sheet`: it returns true exactly when
some stored row fully matches; on false the sheet is unchanged; on true it
removes exactly the first fully-matching row. -/
theorem delete_spec (ws : Sheet) (n d t : String) :
    ((delete_task_from_sheet ws n d t).2 = true ↔
      ∃ row ∈ ws, rowHit n d t row = true) ∧
    ((delete_task_from_sheet ws n d t).2 = false →
      (delete_task_from_sheet ws n d t).1 = ws) ∧
    ((delete_task_from_sheet ws n d t).2 = true →
      ∃ r, r < ws.length ∧ rowHit n d t (ws.getD r []) = true ∧
        (∀ r', r' < r → rowHit n d t (ws.getD r' []) = false) ∧
        (delete_task_from_sheet ws n d t).1 = ws.eraseIdx r) := by
  unfold delete_task_from_sheet
  rw [delLoop_eq_find]
  cases hfind : (findall ws n).find? (fun rc => delCond ws d t rc.1) with
  | none =>
    dsimp only
    refine ⟨⟨fun h => absurd h (by simp), ?_⟩, fun _ => rfl,
      fun h => absurd h (by simp)⟩
    rintro ⟨row, hrow, hhit⟩
    obtain ⟨rc, hrcmem, hrccond⟩ := (exists_hit_iff ws n d t).mpr ⟨row, hrow, hhit⟩
    exact absurd hrccond (by simpa using List.find?_eq_none.mp hfind rc hrcmem)
  | some rc =>
    obtain ⟨r, c⟩ := rc
    dsimp only
    have hcond : delCond ws d t r = true := by
      simpa using List.find?_some hfind
    have hmem : (r, c) ∈ findall ws n := List.mem_of_find?_eq_some hfind
    have hmem' := (findall_mem ws n r c).mp hmem
    obtain ⟨hr, hc, hq⟩ := hmem'
    have hhit : rowHit n d t (ws.getD r []) = true := by
      rw [rowHit_eq n d t ws r, Bool.and_eq_true]
      exact ⟨(contains_iff_getD _ n).mpr ⟨c, hc, hq⟩, hcond⟩
    have hmin : ∀ r', r' < r → rowHit n d t (ws.getD r' []) = false := by
      intro r' hlt
      rcases Nat.lt_or_ge r' ws.length with hr' | hr'
      · by_contra hne
        have hhit' : rowHit n d t (ws.getD r' []) = true := by
          cases hb : rowHit n d t (ws.getD r' [])
          · exact absurd hb hne
          · rfl
        rw [rowHit_eq n d t ws r', Bool.and_eq_true] at hhit'
        obtain ⟨hcont', hcond'⟩ := hhit'
        obtain ⟨c', hc', hq'⟩ := (contains_iff_getD _ n).mp hcont'
        have hmem2 : (r', c') ∈ findall ws n :=
          (findall_mem ws n r' c').mpr ⟨hr', hc', hq'⟩
        have := find?_sorted_min (fun rc => delCond ws d t rc.1)
          (findall ws n) (findall_fst_pairwise ws n) (r, c) hfind
          (r', c') hmem2 (by simpa using hlt)
        simp only at this
        rw [this] at hcond'
        cases hcond'
      · exact rowHit_oob n d t ws r' hr'
    exact ⟨⟨fun _ => ⟨ws.getD r [],
        by rw [getD_eq_getElem ws [] r hr]; exact List.getElem_mem hr, hhit⟩,
      fun _ => rfl⟩,
      fun h => absurd h (by simp),
      fun _ => ⟨r, hr, hhit, hmin, rfl⟩⟩

/-- Erasing a counted row decrements the count. -/
theorem countP_eraseIdx (p : List String → Bool) (l : List (List String))
    (r : Nat) (hr : r < l.length) (hp : p l[r] = true) :
    (l.eraseIdx r).countP p + 1 = l.countP p := by
  induction l generalizing r with
  | nil => cases hr
  | cons x xs ih =>
    cases r with
    | zero =>
      show xs.countP p + 1 = (x :: xs).countP p
      rw [List.countP_cons]
      have hx : p x = true := by simpa using hp
      rw [hx]
      simp
    | succ j =>
      have hj : j < xs.length := by simpa using hr
      have hpj : p xs[j] = true := by simpa using hp
      show (x :: xs.eraseIdx j).countP p + 1 = (x :: xs).countP p
      rw [List.countP_cons, List.countP_cons, ← ih j hj hpj]
      omega

/-- The status-update loop is a no-op when no found cell's row has a
matching Date. -/
theorem updLoop_no_match (d s : String) (ws : Sheet) (cs : List (Nat × Nat))
    (h : ∀ rc ∈ cs, getCell ws rc.1 3 ≠ d) : updLoop d s ws cs = ws := by
  induction cs with
  | nil => rfl
  | cons rc rest ih =>
    obtain ⟨r0, c0⟩ := rc
    simp only [updLoop]
    rw [if_neg (h (r0, c0) (List.mem_cons_self _ _))]
    exact ih (fun rc hrc => h rc (List.mem_cons_of_mem _ hrc))

/-! ## Claim theorems for the matcher -/

/-- C2: every stored row whose Task cell (column index 0) equals the task
name and whose Date cell (column index 3) equals the target date gets its
Status cell (column index 7) set to the new status — all such rows, not
just one. -/
theorem c2_status_update_all_rows (ws : Sheet)
    (task_name date_str new_status : String) (hn : task_name ≠ "") (r : Nat)
    (hr : r < ws.length) (hname : getCell ws r 0 = task_name)
    (hdate : getCell ws r 3 = date_str) :
    getCell (update_status_in_sheet ws task_name date_str new_status).1 r 7 =
      new_status := by
  unfold update_status_in_sheet update_status_body
  dsimp only
  apply updLoop_sets date_str new_status ws (findall ws task_name) r 0 _ hdate hr
  rw [findall_mem]
  have hrow : ws.getD r [] ≠ [] := by
    intro h0
    rw [getCell, h0] at hname
    exact hn hname.symm
  exact ⟨hr, List.length_pos.mpr hrow, hname⟩

/-- C2 witness: two identical "Gym" rows dated 2024-01-10; the update sets
both rows' Status cells to Done. -/
theorem c2_status_update_all_rows_witness :
    getCell (update_status_in_sheet
      [["Gym", "Personal", "Club", "2024-01-10", "18:00", "60", "High",
        "Pending", ""],
       ["Gym", "Personal", "Club", "2024-01-10", "18:00", "60", "High",
        "Pending", ""]] "Gym" "2024-01-10" "Done").1 0 7 = "Done" ∧
    getCell (update_status_in_sheet
      [["Gym", "Personal", "Club", "2024-01-10", "18:00", "60", "High",
        "Pending", ""],
       ["Gym", "Personal", "Club", "2024-01-10", "18:00", "60", "High",
        "Pending", ""]] "Gym" "2024-01-10" "Done").1 1 7 = "Done" :=
  ⟨c2_status_update_all_rows
      [["Gym", "Personal", "Club", "2024-01-10", "18:00", "60", "High",
        "Pending", ""],
       ["Gym", "Personal", "Club", "2024-01-10", "18:00", "60", "High",
        "Pending", ""]] "Gym" "2024-01-10" "Done" (by decide) 0 (by decide)
      rfl rfl,
   c2_status_update_all_rows
      [["Gym", "Personal", "Club", "2024-01-10", "18:00", "60", "High",
        "Pending", ""],
       ["Gym", "Personal", "Club", "2024-01-10", "18:00", "60", "High",
        "Pending", ""]] "Gym" "2024-01-10" "Done" (by decide) 1 (by decide)
      rfl rfl⟩

/-- C3: deletion returns true exactly when some stored row fully matches the
(name, date, time) key; on false the sheet is unchanged; on true exactly the
first fully-matching row (in scan order) is removed; and with at least two
fully-matching rows a second identical call also succeeds, deleting the
remaining duplicate. -/
theorem c3_delete_first_match (ws : Sheet) (n d t : String) :
    ((delete_task_from_sheet ws n d t).2 = true ↔
      ∃ row ∈ ws, rowHit n d t row = true) ∧
    ((delete_task_from_sheet ws n d t).2 = false →
      (delete_task_from_sheet ws n d t).1 = ws) ∧
    ((delete_task_from_sheet ws n d t).2 = true →
      ∃ r, r < ws.length ∧ rowHit n d t (ws.getD r []) = true ∧
        (∀ r', r' < r → rowHit n d t (ws.getD r' []) = false) ∧
        (delete_task_from_sheet ws n d t).1 = ws.eraseIdx r) ∧
    (2 ≤ ws.countP (rowHit n d t) →
      (delete_task_from_sheet ws n d t).2 = true ∧
      (delete_task_from_sheet (delete_task_from_sheet ws n d t).1 n d t).2 =
        true) := by
  obtain ⟨h1, h2, h3⟩ := delete_spec ws n d t
  refine ⟨h1, h2, h3, fun hcount => ?_⟩
  have hpos : 0 < ws.countP (rowHit n d t) := by omega
  obtain ⟨row, hrow, hhit⟩ := List.countP_pos_iff.mp hpos
  have hb1 : (delete_task_from_sheet ws n d t).2 = true :=
    h1.mpr ⟨row, hrow, hhit⟩
  obtain ⟨r, hr, hhr, hmin, herase⟩ := h3 hb1
  refine ⟨hb1, ?_⟩
  have hcount1 : ((delete_task_from_sheet ws n d t).1).countP (rowHit n d t)
      + 1 = ws.countP (rowHit n d t) := by
    rw [herase]
    apply countP_eraseIdx (rowHit n d t) ws r hr
    rw [← getD_eq_getElem ws [] r hr]
    exact hhr
  have hpos1 : 0 <
      ((delete_task_from_sheet ws n d t).1).countP (rowHit n d t) := by omega
  obtain ⟨row1, hrow1, hhit1⟩ := List.countP_pos_iff.mp hpos1
  exact (delete_spec (delete_task_from_sheet ws n d t).1 n d t).1.mpr
    ⟨row1, hrow1, hhit1⟩

/-- C3 witness: two identical fully-matching "Gym" rows; the first call
deletes one and returns true, and a second identical call also returns true,
deleting the remaining duplicate. -/
theorem c3_delete_first_match_witness :
    (delete_task_from_sheet
      [["Gym", "Personal", "Club", "2024-01-10", "18:00", "60", "High",
        "Pending", ""],
       ["Gym", "Personal", "Club", "2024-01-10", "18:00", "60", "High",
        "Pending", ""]] "Gym" "2024-01-10" "18:00").2 = true ∧
    (delete_task_from_sheet
      (delete_task_from_sheet
        [["Gym", "Personal", "Club", "2024-01-10", "18:00", "60", "High",
          "Pending", ""],
         ["Gym", "Personal", "Club", "2024-01-10", "18:00", "60", "High",
          "Pending", ""]] "Gym" "2024-01-10" "18:00").1
      "Gym" "2024-01-10" "18:00").2 = true :=
  (c3_delete_first_match
    [["Gym", "Personal", "Club", "2024-01-10", "18:00", "60", "High",
      "Pending", ""],
     ["Gym", "Personal", "Club", "2024-01-10", "18:00", "60", "High",
      "Pending", ""]] "Gym" "2024-01-10" "18:00").2.2.2 (by decide)

/-- C9 (amended): with a key matching zero stored rows, deletion deletes
nothing and returns false, and the status update leaves the sheet unchanged
and emits no warning (the `st.warning` branch runs only when the storage
layer raises, which a not-found key does not cause); neither operation
raises past the caller. -/
theorem c9_not_found_recoverable (ws : Sheet) (n d t s : String)
    (hupd : ∀ rc ∈ findall ws n, getCell ws rc.1 3 ≠ d)
    (hdel : ∀ row ∈ ws, rowHit n d t row = false) :
    update_status_in_sheet ws n d s = (ws, false) ∧
    delete_task_from_sheet ws n d t = (ws, false) := by
  constructor
  · unfold update_status_in_sheet update_status_body
    dsimp only
    rw [updLoop_no_match d s ws (findall ws n) hupd]
  · obtain ⟨h1, h2, _⟩ := delete_spec ws n d t
    have hfalse : (delete_task_from_sheet ws n d t).2 = false := by
      cases hb : (delete_task_from_sheet ws n d t).2
      · rfl
      · obtain ⟨row, hrow, hhit⟩ := h1.mp hb
        rw [hdel row hrow] at hhit
        cases hhit
    have hfst := h2 hfalse
    calc delete_task_from_sheet ws n d t
        = ((delete_task_from_sheet ws n d t).1,
           (delete_task_from_sheet ws n d t).2) := rfl
      _ = (ws, false) := by rw [hfst, hfalse]

/-- C9 witness: a header-only sheet with no "Gym" cell: the status update
returns the sheet unchanged with no warning, and deletion returns false. -/
theorem c9_not_found_recoverable_witness :
    update_status_in_sheet
      [["Task", "Category", "Location", "Date", "StartTime", "Duration",
        "Priority", "Status", "Notes"]] "Gym" "2024-01-10" "Done" =
      ([["Task", "Category", "Location", "Date", "StartTime", "Duration",
        "Priority", "Status", "Notes"]], false) ∧
    delete_task_from_sheet
      [["Task", "Category", "Location", "Date", "StartTime", "Duration",
        "Priority", "Status", "Notes"]] "Gym" "2024-01-10" "18:00" =
      ([["Task", "Category", "Location", "Date", "StartTime", "Duration",
        "Priority", "Status", "Notes"]], false) :=
  c9_not_found_recoverable
    [["Task", "Category", "Location", "Date", "StartTime", "Duration",
      "Priority", "Status", "Notes"]] "Gym" "2024-01-10" "18:00" "Done"
    (by decide) (by decide)

/-- C9 counterexample: a status-update call whose key matches zero stored
rows (the sheet has no "Gym" cell at all).  The claim says not-found is
reported as a warning; the code's warning flag is false — the operation is
a silent no-op, warning only when the storage layer raises. -/
theorem c9_counterexample :
    findall [["Task", "Category", "Location", "Date", "StartTime", "Duration",
      "Priority", "Status", "Notes"]] "Gym" = [] ∧
    (update_status_in_sheet
      [["Task", "Category", "Location", "Date", "StartTime", "Duration",
        "Priority", "Status", "Notes"]] "Gym" "2024-01-10" "Done").2 =
      false :=
  ⟨rfl, rfl⟩

end LifeOS
